import Mathlib

/-!
# Verification of the DOE-PE gazette scanner's classification core

Shallow embedding of the keyword-matching / classification pass of
`src/bot.py` and `src/bot1.py` (class `DOEProcessor`).  Python strings are
modelled as lists of Unicode code points (`List Nat`), which matches
Python's indexing, slicing and `len` semantics.  Character-level
operations (`str.lower`, `str.isupper`, whitespace classes) are modelled
faithfully on the Basic Latin and Latin-1 ranges, which cover every
character appearing in the keyword catalogs and in Portuguese gazette
text handled by the program.
-/

namespace DOE

/-- A Python string: a sequence of Unicode code points. -/
abbrev PyStr := List Nat

/-- Embed a Lean string literal as a Python string. -/
def pstr (s : String) : PyStr := s.data.map Char.toNat

/-- Python's whitespace class (as used by `str.split()` with no
arguments): ASCII whitespace plus the Unicode space code points. -/
def pyIsSpace (c : Nat) : Bool :=
  c == 32 || c == 9 || c == 10 || c == 13 || c == 11 || c == 12 ||
  c == 0x85 || c == 0xA0 || c == 0x1680 ||
  (0x2000 ≤ c && c ≤ 0x200A) ||
  c == 0x2028 || c == 0x2029 || c == 0x202F || c == 0x205F || c == 0x3000

/-- Uppercase cased letters in Basic Latin / Latin-1 (A-Z, À-Ö, Ø-Þ). -/
def pyUpperCharB (c : Nat) : Bool :=
  (65 ≤ c && c ≤ 90) || (192 ≤ c && c ≤ 214) || (216 ≤ c && c ≤ 222)

/-- Lowercase cased letters in Basic Latin / Latin-1
(a-z, ß-ö, ø-ÿ, plus ª µ º). -/
def pyLowerCharB (c : Nat) : Bool :=
  (97 ≤ c && c ≤ 122) || (223 ≤ c && c ≤ 246) || (248 ≤ c && c ≤ 255) ||
  c == 170 || c == 181 || c == 186

/-- Python `str.lower` on one code point (Basic Latin / Latin-1):
A-Z and À-Þ (except ×) shift by 32, everything else is fixed. -/
def pyLowerN (c : Nat) : Nat :=
  if (65 ≤ c ∧ c ≤ 90) ∨ (192 ≤ c ∧ c ≤ 222 ∧ c ≠ 215) then c + 32 else c

/-- Python `str.lower` on a string. -/
def pyLower (s : PyStr) : PyStr := s.map pyLowerN

/-- Python `str.isupper`: at least one cased character and no lowercase
cased character (on Latin-1 there are no other cased characters, so
"every cased character is uppercase" is "no lowercase character"). -/
def pyIsUpper (s : PyStr) : Bool :=
  s.all (fun c => !pyLowerCharB c) && s.any pyUpperCharB

/-- Python `str.split()` with no arguments: split on runs of whitespace,
discarding empty fields (hence also leading/trailing whitespace). -/
def pySplit : PyStr → List PyStr
  | [] => []
  | [c] => if pyIsSpace c then [] else [[c]]
  | c :: c2 :: cs =>
    if pyIsSpace c then pySplit (c2 :: cs)
    else if pyIsSpace c2 then [c] :: pySplit cs
    else
      match pySplit (c2 :: cs) with
      | [] => [[c]]
      | w :: ws => (c :: w) :: ws

/-- Python `sep.join(xs)` for a one-character separator. -/
def joinWith (sep : Nat) : List PyStr → PyStr
  | [] => []
  | [w] => w
  | w :: ws => w ++ sep :: joinWith sep ws

/-- `DOEProcessor.clean_text` (src/bot.py lines 112-115, src/bot1.py
lines 136-138): `if not text: return ""` then `" ".join(text.split())`. -/
def cleanText (t : PyStr) : PyStr :=
  if t = [] then [] else joinWith 32 (pySplit t)

/-- Python `text.split('\n')`: split on newline, keeping empty fields. -/
def splitLines : PyStr → List PyStr
  | [] => [[]]
  | c :: cs =>
    let r := splitLines cs
    if c == 10 then [] :: r
    else
      match r with
      | [] => [[c]]
      | w :: ws => (c :: w) :: ws

/-- Python `str.strip()`: drop whitespace from both ends. -/
def pyStrip (s : PyStr) : PyStr :=
  ((s.dropWhile pyIsSpace).reverse.dropWhile pyIsSpace).reverse

/-- `leadsWith needle hay` holds when `needle` is an initial segment of
`hay` (used to express substring occurrence at a given offset). -/
def leadsWith : PyStr → PyStr → Bool
  | [], _ => true
  | _ :: _, [] => false
  | a :: as, b :: bs => a == b && leadsWith as bs

/-- Python `hay.find(needle)` restricted to the found case:
index of the first occurrence of `needle` in `hay`, if any. -/
def firstIdx (needle : PyStr) : PyStr → Option Nat
  | [] => if leadsWith needle [] then some 0 else none
  | c :: t =>
    if leadsWith needle (c :: t) then some 0
    else (firstIdx needle t).map (· + 1)

/-- Python `needle in hay` for strings. -/
def strContains (hay needle : PyStr) : Bool := (firstIdx needle hay).isSome

/-- A value stored in one of the program's result dictionaries. -/
inductive PyVal where
  | str : PyStr → PyVal
  | int : Nat → PyVal
deriving DecidableEq

/-- One finding record, modelling the Python dict built in
`analyze_pdf` (key/value pairs in insertion order). -/
abbrev Entry := List (String × PyVal)

/-- One keyword category of `self.keywords`: name, ordered term list,
impact level (src/bot.py lines 32-49, src/bot1.py lines 29-50). -/
structure Category where
  nome : PyStr
  termos : List PyStr
  impacto : PyStr
deriving DecidableEq

/-- The keyword catalog of `src/bot.py` (lines 32-49), in dict
insertion order. -/
def botKeywords : List Category :=
  [⟨pstr "CONCURSOS_SELECOES",
    [pstr "concurso público", pstr "processo seletivo", pstr "nomeação",
     pstr "homologação", pstr "edital de abertura", pstr "convocação"],
    pstr "ALTO"⟩,
   ⟨pstr "SAUDE_BIOTEC",
    [pstr "secretaria de saúde", pstr "biotecnologia", pstr "medicamentos",
     pstr "insumos", pstr "laboratório", pstr "vacinação", pstr "epidemiológica"],
    pstr "MEDIO"⟩,
   ⟨pstr "EDUCACAO_PESQUISA",
    [pstr "fapesq", pstr "bolsa de pesquisa", pstr "mestrado", pstr "doutorado",
     pstr "universidade de pernambuco", pstr "educação básica"],
    pstr "MEDIO"⟩,
   ⟨pstr "REGULACAO_LEIS",
    [pstr "decreto nº", pstr "lei nº", pstr "portaria nº", pstr "resolução"],
    pstr "BAIXO"⟩]

/-- The keyword catalog of `src/bot1.py` (lines 29-50): the
`MONITORAMENTO_PESSOAL` category followed by the same four categories
as `src/bot.py`. -/
def bot1Keywords : List Category :=
  ⟨pstr "MONITORAMENTO_PESSOAL", [pstr "SEU NOME"], pstr "ALTO"⟩ :: botKeywords

/-- The topic-line test of the header heuristic:
`line.isupper() and len(line) > 5`. -/
def topicQual (l : PyStr) : Bool := pyIsUpper l && decide (5 < l.length)

/-- Topic estimation (src/bot.py lines 132-138, src/bot1.py lines
150-155): `topico_estimado = "GERAL"`, then scan `text.split('\n')[:5]`
and take the first line with `line.isupper() and len(line) > 5`,
breaking at the first hit.  The for/break loop is the first such line,
or the default when none exists. -/
def topicLabel (raw : PyStr) : PyStr :=
  (((splitLines raw).take 5).find? topicQual).getD (pstr "GERAL")

/-- The result dict built in `analyze_pdf` (src/bot.py lines 158-166,
src/bot1.py lines 168-177).  `src/bot1.py` puts an extra `"arquivo"`
key first; `src/bot.py` has no such key, so the maker is parameterised
by an optional source-file name. -/
def mkEntry (arq : Option PyStr) (pagina : Nat)
    (topico categoria termo impacto snippet dataProc : PyStr) : Entry :=
  (match arq with
   | some a => [("arquivo", PyVal.str a)]
   | none => []) ++
  [("pagina", PyVal.int pagina),
   ("topico_detectado", PyVal.str topico),
   ("categoria", PyVal.str categoria),
   ("termo_encontrado", PyVal.str termo),
   ("impacto", PyVal.str impacto),
   ("resumo_snippet", PyVal.str snippet),
   ("data_processamento", PyVal.str dataProc)]

/-- The context snippet of a match: `text_clean[max(0, idx-100) :
min(len(text_clean), idx+200)].strip() + "..."` at the first
occurrence index `idx = text_lower.find(termo)` (src/bot.py lines
152-156 and 164, src/bot1.py lines 163-166 and 175).  Note `max(0, ·)`
is truncated `Nat` subtraction. -/
def snippetOf (clean lower termo : PyStr) : PyStr :=
  let idx := (firstIdx termo lower).getD 0
  let startCtx := idx - 100
  let endCtx := min clean.length (idx + 200)
  pyStrip ((clean.drop startCtx).take (endCtx - startCtx)) ++ pstr "..."

/-- One category's contribution on one page (the inner
`for termo in info['termos']` loop with its `break`, src/bot.py lines
148-178, src/bot1.py lines 161-182): the first term contained in the
lowered text wins. -/
def catEntry (arq : Option PyStr) (pagina : Nat)
    (topico dataProc clean lower : PyStr) (cat : Category) : Option Entry :=
  match cat.termos.find? (fun t => strContains lower t) with
  | none => none
  | some termo =>
    some (mkEntry arq pagina topico cat.nome termo cat.impacto
      (snippetOf clean lower termo) dataProc)

/-- A category's findings on one page as a list (zero or one entries). -/
def catFindings (arq : Option PyStr) (pagina : Nat)
    (topico dataProc clean lower : PyStr) (cat : Category) : List Entry :=
  (catEntry arq pagina topico dataProc clean lower cat).toList

/-- All findings of one page, in catalog order. -/
def pageEntries (arq : Option PyStr) (pagina : Nat)
    (topico dataProc clean lower : PyStr) : List Category → List Entry
  | [] => []
  | cat :: rest =>
    catFindings arq pagina topico dataProc clean lower cat ++
    pageEntries arq pagina topico dataProc clean lower rest

/-- The outer `for categoria, info in self.keywords.items()` loop of
`analyze_pdf`, threading the two accumulator lists `extracted_data`
and `concursos_data`: each emitted entry is appended to the first, and
also to the second exactly when the category's impact is `"ALTO"`
(src/bot.py lines 147-178, src/bot1.py lines 160-182). -/
def pageLoop (arq : Option PyStr) (pagina : Nat)
    (topico dataProc clean lower : PyStr)
    (catalog : List Category) (acc : List Entry × List Entry) :
    List Entry × List Entry :=
  catalog.foldl (fun acc cat =>
    match catEntry arq pagina topico dataProc clean lower cat with
    | none => acc
    | some e =>
      (acc.1 ++ [e], if cat.impacto = pstr "ALTO" then acc.2 ++ [e] else acc.2))
    acc

/-- `DOEProcessor.analyze_pdf` (src/bot.py lines 117-180, src/bot1.py
lines 140-183), abstracted over the external PDF-extraction collaborator:
`pages` is the sequence of per-page raw texts (`[]` for a page whose
`extract_text()` is falsy, which the loop skips with `continue`), and
`dataProc` is `datetime.now().strftime("%Y-%m-%d")`, the clock input.
`arq` is `some basename` for `src/bot1.py` and `none` for `src/bot.py`
(whose entries carry no `"arquivo"` key).  Dead locals of bot.py
(`found_categories`, `impact_level`) never influence the returned pair
and are omitted.  Returns `(extracted_data, concursos_data)`.
`pageStep` is the body of the `for i, page in enumerate(pdf.pages)`
loop: a falsy page text is skipped with `continue`. -/
def pageStep (arq : Option PyStr) (catalog : List Category) (dataProc : PyStr)
    (acc : List Entry × List Entry) (ip : Nat × PyStr) : List Entry × List Entry :=
  if ip.2 = [] then acc
  else
    pageLoop arq (ip.1 + 1) (topicLabel ip.2) dataProc
      (cleanText ip.2) (pyLower (cleanText ip.2)) catalog acc

def analyzePdf (arq : Option PyStr) (catalog : List Category)
    (pages : List PyStr) (dataProc : PyStr) : List Entry × List Entry :=
  (List.enum pages).foldl (pageStep arq catalog dataProc) ([], [])

/-- The classification of a single page (the body of the page loop of
`analyze_pdf`): empty text yields nothing; otherwise the topic label,
the cleaned text and its lowering feed the category loop. -/
def classifyPage (arq : Option PyStr) (catalog : List Category)
    (pagina : Nat) (text dataProc : PyStr) : List Entry :=
  if text = [] then []
  else
    pageEntries arq pagina (topicLabel text) dataProc
      (cleanText text) (pyLower (cleanText text)) catalog

/-- The high-impact test on an entry: its `"impacto"` value is `"ALTO"`. -/
def isAltoB (e : Entry) : Bool :=
  List.lookup "impacto" e == some (PyVal.str (pstr "ALTO"))

/-- The per-page findings of a run, page by page in order. -/
def allPages (arq : Option PyStr) (catalog : List Category)
    (dataProc : PyStr) : List (Nat × PyStr) → List Entry
  | [] => []
  | ip :: rest =>
    classifyPage arq catalog (ip.1 + 1) ip.2 dataProc ++
    allPages arq catalog dataProc rest

/-! ## Structural lemmas -/

theorem lookup_impacto_mkEntry (arq : Option PyStr) (pagina : Nat)
    (topico categoria termo impacto snippet dataProc : PyStr) :
    List.lookup "impacto"
      (mkEntry arq pagina topico categoria termo impacto snippet dataProc) =
      some (PyVal.str impacto) := by
  cases arq <;> rfl

theorem lookup_categoria_mkEntry (arq : Option PyStr) (pagina : Nat)
    (topico categoria termo impacto snippet dataProc : PyStr) :
    List.lookup "categoria"
      (mkEntry arq pagina topico categoria termo impacto snippet dataProc) =
      some (PyVal.str categoria) := by
  cases arq <;> rfl

theorem lookup_termo_mkEntry (arq : Option PyStr) (pagina : Nat)
    (topico categoria termo impacto snippet dataProc : PyStr) :
    List.lookup "termo_encontrado"
      (mkEntry arq pagina topico categoria termo impacto snippet dataProc) =
      some (PyVal.str termo) := by
  cases arq <;> rfl

theorem lookup_snippet_mkEntry (arq : Option PyStr) (pagina : Nat)
    (topico categoria termo impacto snippet dataProc : PyStr) :
    List.lookup "resumo_snippet"
      (mkEntry arq pagina topico categoria termo impacto snippet dataProc) =
      some (PyVal.str snippet) := by
  cases arq <;> rfl

theorem lookup_pagina_mkEntry (arq : Option PyStr) (pagina : Nat)
    (topico categoria termo impacto snippet dataProc : PyStr) :
    List.lookup "pagina"
      (mkEntry arq pagina topico categoria termo impacto snippet dataProc) =
      some (PyVal.int pagina) := by
  cases arq <;> rfl

theorem lookup_topico_mkEntry (arq : Option PyStr) (pagina : Nat)
    (topico categoria termo impacto snippet dataProc : PyStr) :
    List.lookup "topico_detectado"
      (mkEntry arq pagina topico categoria termo impacto snippet dataProc) =
      some (PyVal.str topico) := by
  cases arq <;> rfl

theorem lookup_data_mkEntry (arq : Option PyStr) (pagina : Nat)
    (topico categoria termo impacto snippet dataProc : PyStr) :
    List.lookup "data_processamento"
      (mkEntry arq pagina topico categoria termo impacto snippet dataProc) =
      some (PyVal.str dataProc) := by
  cases arq <;> rfl

theorem lookup_arquivo_mkEntry (a : PyStr) (pagina : Nat)
    (topico categoria termo impacto snippet dataProc : PyStr) :
    List.lookup "arquivo"
      (mkEntry (some a) pagina topico categoria termo impacto snippet dataProc) =
      some (PyVal.str a) := rfl

theorem lookup_arquivo_mkEntry_none (pagina : Nat)
    (topico categoria termo impacto snippet dataProc : PyStr) :
    List.lookup "arquivo"
      (mkEntry none pagina topico categoria termo impacto snippet dataProc) =
      none := rfl

theorem isAltoB_mkEntry (arq : Option PyStr) (pagina : Nat)
    (topico categoria termo impacto snippet dataProc : PyStr) :
    isAltoB (mkEntry arq pagina topico categoria termo impacto snippet dataProc) =
      decide (impacto = pstr "ALTO") := by
  by_cases h : impacto = pstr "ALTO" <;>
    simp [isAltoB, lookup_impacto_mkEntry, h, beq_iff_eq]

theorem catEntry_shape {arq : Option PyStr} {pagina : Nat}
    {topico dataProc clean lower : PyStr} {cat : Category} {e : Entry}
    (h : catEntry arq pagina topico dataProc clean lower cat = some e) :
    ∃ termo, cat.termos.find? (fun t => strContains lower t) = some termo ∧
      e = mkEntry arq pagina topico cat.nome termo cat.impacto
        (snippetOf clean lower termo) dataProc := by
  unfold catEntry at h
  split at h
  · exact absurd h (by simp)
  · rename_i termo hf
    exact ⟨termo, hf, (Option.some.inj h).symm⟩

theorem mem_pageEntries {arq : Option PyStr} {pagina : Nat}
    {topico dataProc clean lower : PyStr} {catalog : List Category} {e : Entry} :
    e ∈ pageEntries arq pagina topico dataProc clean lower catalog ↔
      ∃ cat ∈ catalog, catEntry arq pagina topico dataProc clean lower cat = some e := by
  induction catalog with
  | nil => simp [pageEntries]
  | cons cat rest ih =>
    simp only [pageEntries, catFindings, List.mem_append, ih, List.mem_cons]
    constructor
    · rintro (h | ⟨c, hc, he⟩)
      · refine ⟨cat, Or.inl rfl, ?_⟩
        cases hx : catEntry arq pagina topico dataProc clean lower cat <;>
          simp [hx] at h ⊢
        exact h.symm
      · exact ⟨c, Or.inr hc, he⟩
    · rintro ⟨c, (rfl | hc), he⟩
      · exact Or.inl (by simp [he])
      · exact Or.inr ⟨c, hc, he⟩

theorem pageLoop_spec (arq : Option PyStr) (pagina : Nat)
    (topico dataProc clean lower : PyStr) :
    ∀ (catalog : List Category) (acc : List Entry × List Entry),
      pageLoop arq pagina topico dataProc clean lower catalog acc =
        (acc.1 ++ pageEntries arq pagina topico dataProc clean lower catalog,
         acc.2 ++ (pageEntries arq pagina topico dataProc clean lower catalog).filter isAltoB) := by
  intro catalog
  induction catalog with
  | nil => intro acc; simp [pageLoop, pageEntries]
  | cons cat rest ih =>
    intro acc
    simp only [pageLoop, List.foldl_cons] at *
    cases h : catEntry arq pagina topico dataProc clean lower cat with
    | none =>
      rw [ih acc]
      simp [pageEntries, catFindings, h]
    | some e =>
      rw [ih _]
      obtain ⟨termo, _, he⟩ := catEntry_shape h
      have halto : isAltoB e = decide (cat.impacto = pstr "ALTO") := by
        rw [he, isAltoB_mkEntry]
      by_cases himp : cat.impacto = pstr "ALTO" <;>
        simp [pageEntries, catFindings, h, halto, himp]

theorem foldl_pageStep_spec (arq : Option PyStr) (catalog : List Category)
    (dataProc : PyStr) :
    ∀ (l : List (Nat × PyStr)) (acc : List Entry × List Entry),
      l.foldl (pageStep arq catalog dataProc) acc =
        (acc.1 ++ allPages arq catalog dataProc l,
         acc.2 ++ (allPages arq catalog dataProc l).filter isAltoB) := by
  intro l
  induction l with
  | nil => intro acc; simp [allPages]
  | cons ip rest ih =>
    intro acc
    simp only [List.foldl_cons]
    rw [ih]
    by_cases ht : ip.2 = []
    · simp [pageStep, ht, allPages, classifyPage]
    · simp only [pageStep, ht, if_neg ht, pageLoop_spec, allPages, classifyPage, if_neg ht]
      simp [List.filter_append]

theorem analyzePdf_eq (arq : Option PyStr) (catalog : List Category)
    (pages : List PyStr) (dataProc : PyStr) :
    analyzePdf arq catalog pages dataProc =
      (allPages arq catalog dataProc (List.enum pages),
       (allPages arq catalog dataProc (List.enum pages)).filter isAltoB) := by
  unfold analyzePdf
  rw [foldl_pageStep_spec]
  simp

theorem mem_allPages {arq : Option PyStr} {catalog : List Category}
    {dataProc : PyStr} {l : List (Nat × PyStr)} {e : Entry} :
    e ∈ allPages arq catalog dataProc l ↔
      ∃ ip ∈ l, e ∈ classifyPage arq catalog (ip.1 + 1) ip.2 dataProc := by
  induction l with
  | nil => simp [allPages]
  | cons ip rest ih => simp [allPages, ih]

theorem find?_decomp {α : Type} {p : α → Bool} {l : List α} {a : α}
    (h : l.find? p = some a) :
    ∃ s t, l = s ++ a :: t ∧ p a = true ∧ ∀ x ∈ s, p x = false := by
  induction l with
  | nil => simp at h
  | cons b bs ih =>
    by_cases hp : p b
    · rw [List.find?_cons_of_pos _ hp] at h
      cases h
      exact ⟨[], bs, rfl, hp, by simp⟩
    · rw [List.find?_cons_of_neg _ hp] at h
      obtain ⟨s, t, rfl, hpa, hs⟩ := ih h
      refine ⟨b :: s, t, rfl, hpa, ?_⟩
      intro x hx
      rcases List.mem_cons.mp hx with rfl | hx
      · exact Bool.eq_false_iff.mpr hp
      · exact hs x hx

theorem firstIdx_some {needle hay : PyStr} {i : Nat}
    (h : firstIdx needle hay = some i) :
    leadsWith needle (hay.drop i) = true ∧
      ∀ j < i, leadsWith needle (hay.drop j) = false := by
  induction hay generalizing i with
  | nil =>
    unfold firstIdx at h
    split at h
    · cases h
      exact ⟨by assumption, by intro j hj; omega⟩
    · exact absurd h (by simp)
  | cons c t ih =>
    unfold firstIdx at h
    split at h
    · cases h
      exact ⟨by assumption, by intro j hj; omega⟩
    · rename_i hlw
      cases hf : firstIdx needle t with
      | none => rw [hf] at h; simp at h
      | some k =>
        rw [hf] at h
        have hik : i = k + 1 := by simpa using h.symm
        subst hik
        obtain ⟨h1, h2⟩ := ih hf
        refine ⟨h1, ?_⟩
        intro j hj
        cases j with
        | zero => simpa using Bool.eq_false_iff.mpr hlw
        | succ j' => exact h2 j' (by omega)

theorem leadsWith_subset : ∀ {n h : PyStr}, leadsWith n h = true →
    ∀ c ∈ n, c ∈ h := by
  intro n
  induction n with
  | nil => simp
  | cons a as ih =>
    intro h hl c hc
    cases h with
    | nil => simp [leadsWith] at hl
    | cons b bs =>
      simp only [leadsWith, Bool.and_eq_true, beq_iff_eq] at hl
      rcases List.mem_cons.mp hc with rfl | hc
      · exact hl.1 ▸ List.mem_cons_self b bs
      · exact List.mem_cons_of_mem b (ih hl.2 c hc)

theorem pyLowerN_idem (c : Nat) : pyLowerN (pyLowerN c) = pyLowerN c := by
  by_cases h : (65 ≤ c ∧ c ≤ 90) ∨ (192 ≤ c ∧ c ≤ 222 ∧ c ≠ 215)
  · have h1 : pyLowerN c = c + 32 := by unfold pyLowerN; rw [if_pos h]
    rw [h1]
    unfold pyLowerN
    rw [if_neg (by omega)]
  · have h1 : pyLowerN c = c := by unfold pyLowerN; rw [if_neg h]
    rw [h1, h1]

/-- A term containing a code point that is not fixed by lowercasing can
never occur in a lowercased text. -/
theorem contains_lower_fixed {x tm : PyStr} {c : Nat}
    (hc : c ∈ tm) (hne : pyLowerN c ≠ c) :
    strContains (pyLower x) tm = false := by
  by_contra hcon
  have hcT : strContains (pyLower x) tm = true := by
    cases hb : strContains (pyLower x) tm
    · exact absurd hb hcon
    · rfl
  obtain ⟨i, hi⟩ := Option.isSome_iff_exists.mp hcT
  have hlw := (firstIdx_some hi).1
  have hmem : c ∈ pyLower x :=
    List.drop_subset i (pyLower x) (leadsWith_subset hlw c hc)
  obtain ⟨c', _, rfl⟩ := List.mem_map.mp hmem
  exact hne (pyLowerN_idem c')

theorem pySplit_one (c : Nat) :
    pySplit [c] = if pyIsSpace c then [] else [[c]] := rfl

theorem pySplit_cons2 (c c2 : Nat) (cs : PyStr) :
    pySplit (c :: c2 :: cs) =
      if pyIsSpace c then pySplit (c2 :: cs)
      else if pyIsSpace c2 then [c] :: pySplit cs
      else
        match pySplit (c2 :: cs) with
        | [] => [[c]]
        | w :: ws => (c :: w) :: ws := rfl

/-- Every field produced by `str.split()` is a nonempty run of
non-whitespace characters. -/
theorem pySplit_words : ∀ (s : PyStr), ∀ w ∈ pySplit s,
    w ≠ [] ∧ ∀ c ∈ w, pyIsSpace c = false := by
  intro s
  induction s using pySplit.induct with
  | case1 => simp [pySplit]
  | case2 c hsp => simp [pySplit_one, hsp]
  | case3 c hsp =>
    intro w hw
    rw [pySplit_one, if_neg hsp] at hw
    rcases List.mem_singleton.mp hw with rfl
    exact ⟨by simp, by simpa using Bool.eq_false_iff.mpr hsp⟩
  | case4 c c2 cs hsp ih =>
    intro w hw
    rw [pySplit_cons2, if_pos hsp] at hw
    exact ih w hw
  | case5 c c2 cs hsp hsp2 ih =>
    intro w hw
    rw [pySplit_cons2, if_neg hsp, if_pos hsp2] at hw
    rcases List.mem_cons.mp hw with rfl | hw
    · exact ⟨by simp, by simpa using Bool.eq_false_iff.mpr hsp⟩
    · exact ih w hw
  | case6 c c2 cs hsp hsp2 hnil ih =>
    intro w hw
    rw [pySplit_cons2, if_neg hsp, if_neg hsp2, hnil] at hw
    rcases List.mem_singleton.mp hw with rfl
    exact ⟨by simp, by simpa using Bool.eq_false_iff.mpr hsp⟩
  | case7 c c2 cs hsp hsp2 w' ws' hcons ih =>
    intro w hw
    rw [pySplit_cons2, if_neg hsp, if_neg hsp2, hcons] at hw
    rcases List.mem_cons.mp hw with rfl | hw
    · have hw' := ih w' (by rw [hcons]; exact List.mem_cons_self _ _)
      refine ⟨by simp, ?_⟩
      intro d hd
      rcases List.mem_cons.mp hd with rfl | hd
      · simpa using Bool.eq_false_iff.mpr hsp
      · exact hw'.2 d hd
    · exact ih w (by rw [hcons]; exact List.mem_cons_of_mem _ hw)

/-- Splitting a nonempty whitespace-free word followed by a space
separator peels off exactly that word. -/
theorem pySplit_word_space : ∀ (w : PyStr) (t : PyStr), w ≠ [] →
    (∀ c ∈ w, pyIsSpace c = false) →
    pySplit (w ++ 32 :: t) = w :: pySplit t := by
  intro w
  induction w with
  | nil => intro t hne _; exact absurd rfl hne
  | cons a as ih =>
    intro t _ hf
    have ha : pyIsSpace a = false := hf a (List.mem_cons_self _ _)
    cases as with
    | nil =>
      show pySplit (a :: 32 :: t) = [a] :: pySplit t
      rw [pySplit_cons2, if_neg (by simp [ha]), if_pos (by rfl)]
    | cons b bs =>
      have hb : pyIsSpace b = false :=
        hf b (List.mem_cons_of_mem _ (List.mem_cons_self _ _))
      have ihr : pySplit ((b :: bs) ++ 32 :: t) = (b :: bs) :: pySplit t :=
        ih t (by simp) (fun c hc => hf c (List.mem_cons_of_mem _ hc))
      show pySplit (a :: (b :: bs ++ 32 :: t)) = (a :: b :: bs) :: pySplit t
      rw [List.cons_append] at ihr
      rw [List.cons_append, pySplit_cons2, if_neg (by simp [ha]),
        if_neg (by simp [hb]), ihr]

/-- Splitting a single nonempty whitespace-free word yields that word. -/
theorem pySplit_word_nil : ∀ (w : PyStr), w ≠ [] →
    (∀ c ∈ w, pyIsSpace c = false) → pySplit w = [w] := by
  intro w
  induction w with
  | nil => intro hne _; exact absurd rfl hne
  | cons a as ih =>
    intro _ hf
    have ha : pyIsSpace a = false := hf a (List.mem_cons_self _ _)
    cases as with
    | nil =>
      show pySplit [a] = [[a]]
      rw [pySplit_one, if_neg (by simp [ha])]
    | cons b bs =>
      have hb : pyIsSpace b = false :=
        hf b (List.mem_cons_of_mem _ (List.mem_cons_self _ _))
      have ihr : pySplit (b :: bs) = [b :: bs] :=
        ih (by simp) (fun c hc => hf c (List.mem_cons_of_mem _ hc))
      show pySplit (a :: b :: bs) = [a :: b :: bs]
      rw [pySplit_cons2, if_neg (by simp [ha]), if_neg (by simp [hb]), ihr]

/-- `str.split()` is a left inverse of `" ".join` on lists of nonempty
whitespace-free words. -/
theorem pySplit_joinWith : ∀ (ws : List PyStr),
    (∀ w ∈ ws, w ≠ [] ∧ ∀ c ∈ w, pyIsSpace c = false) →
    pySplit (joinWith 32 ws) = ws := by
  intro ws
  induction ws with
  | nil => intro _; rfl
  | cons w rest ih =>
    intro h
    have hw := h w (List.mem_cons_self _ _)
    cases rest with
    | nil => exact pySplit_word_nil w hw.1 hw.2
    | cons w2 rest2 =>
      show pySplit (w ++ 32 :: joinWith 32 (w2 :: rest2)) = w :: w2 :: rest2
      rw [pySplit_word_space w _ hw.1 hw.2,
        ih (fun x hx => h x (List.mem_cons_of_mem _ hx))]

theorem joinWith_ne_nil {ws : List PyStr} (hne : ws ≠ [])
    (hw : ∀ w ∈ ws, w ≠ []) : joinWith 32 ws ≠ [] := by
  cases ws with
  | nil => exact absurd rfl hne
  | cons w rest =>
    cases rest with
    | nil => exact hw w (List.mem_cons_self _ _)
    | cons w2 rest2 =>
      show w ++ 32 :: joinWith 32 (w2 :: rest2) ≠ []
      simp [hw w (List.mem_cons_self _ _)]

theorem cleanText_eq_join {x : PyStr} (hx : x ≠ []) :
    cleanText x = joinWith 32 (pySplit x) := by
  unfold cleanText
  rw [if_neg hx]

theorem cleanText_idem_aux (x : PyStr) :
    cleanText (cleanText x) = cleanText x := by
  by_cases hx : x = []
  · simp [cleanText, hx]
  · rw [cleanText_eq_join hx]
    cases hw : pySplit x with
    | nil => simp [cleanText, joinWith]
    | cons w rest =>
      have hwords : ∀ v ∈ pySplit x, v ≠ [] ∧ ∀ c ∈ v, pyIsSpace c = false :=
        pySplit_words x
      rw [hw] at hwords
      have hne : joinWith 32 (w :: rest) ≠ [] :=
        joinWith_ne_nil (by simp) (fun v hv => (hwords v hv).1)
      rw [cleanText_eq_join hne, pySplit_joinWith _ hwords]

/-! ## Per-category counting -/

/-- The test that an entry's `"categoria"` value is `nome`. -/
def catOfB (nome : PyStr) (e : Entry) : Bool :=
  List.lookup "categoria" e == some (PyVal.str nome)

theorem catOfB_mkEntry (nome : PyStr) (arq : Option PyStr) (pagina : Nat)
    (topico categoria termo impacto snippet dataProc : PyStr) :
    catOfB nome (mkEntry arq pagina topico categoria termo impacto snippet dataProc) =
      decide (categoria = nome) := by
  by_cases h : categoria = nome <;>
    simp [catOfB, lookup_categoria_mkEntry, h, beq_iff_eq]

theorem catFindings_length_le (arq : Option PyStr) (pagina : Nat)
    (topico dataProc clean lower : PyStr) (cat : Category) :
    (catFindings arq pagina topico dataProc clean lower cat).length ≤ 1 := by
  unfold catFindings
  cases catEntry arq pagina topico dataProc clean lower cat <;> simp

theorem pageEntries_length_le (arq : Option PyStr) (pagina : Nat)
    (topico dataProc clean lower : PyStr) :
    ∀ catalog : List Category,
      (pageEntries arq pagina topico dataProc clean lower catalog).length ≤
        catalog.length := by
  intro catalog
  induction catalog with
  | nil => simp [pageEntries]
  | cons cat rest ih =>
    have h1 := catFindings_length_le arq pagina topico dataProc clean lower cat
    simp only [pageEntries, List.length_append, List.length_cons]
    omega

theorem countP_pageEntries_notmem {arq : Option PyStr} {pagina : Nat}
    {topico dataProc clean lower : PyStr} {catalog : List Category} {nome : PyStr}
    (hn : nome ∉ catalog.map Category.nome) :
    (pageEntries arq pagina topico dataProc clean lower catalog).countP
      (catOfB nome) = 0 := by
  rw [List.countP_eq_zero]
  intro e he
  obtain ⟨cat, hcat, hce⟩ := mem_pageEntries.mp he
  obtain ⟨termo, _, rfl⟩ := catEntry_shape hce
  rw [catOfB_mkEntry]
  simp only [decide_eq_true_eq]
  intro hEq
  exact hn (hEq ▸ List.mem_map_of_mem Category.nome hcat)

theorem countP_pageEntries_le_one {arq : Option PyStr} {pagina : Nat}
    {topico dataProc clean lower : PyStr} {catalog : List Category}
    (hnd : (catalog.map Category.nome).Nodup) (nome : PyStr) :
    (pageEntries arq pagina topico dataProc clean lower catalog).countP
      (catOfB nome) ≤ 1 := by
  induction catalog with
  | nil => simp [pageEntries]
  | cons cat rest ih =>
    rw [List.map_cons, List.nodup_cons] at hnd
    have ihr := ih hnd.2
    show ((catFindings arq pagina topico dataProc clean lower cat ++
      pageEntries arq pagina topico dataProc clean lower rest).countP
        (catOfB nome)) ≤ 1
    rw [List.countP_append]
    cases hce : catEntry arq pagina topico dataProc clean lower cat with
    | none => simpa [catFindings, hce] using ihr
    | some e =>
      obtain ⟨termo, _, rfl⟩ := catEntry_shape hce
      by_cases hcn : cat.nome = nome
      · have h0 : (pageEntries arq pagina topico dataProc clean lower rest).countP
            (catOfB nome) = 0 :=
          countP_pageEntries_notmem (hcn ▸ hnd.1)
        simp [catFindings, hce, h0, List.countP_cons, catOfB_mkEntry, hcn]
      · simpa [catFindings, hce, List.countP_cons, catOfB_mkEntry, hcn] using ihr

/-! ## Definitions used only to state the claims -/

/-- The topic-label rule as the spec words it, for comparison with the
code's `topicLabel`: scan at most the first 5 NON-EMPTY lines of the raw
page text in order and take the first that is entirely upper-case and
longer than 5 characters, else the default. -/
def specTopicLabel (raw : PyStr) : PyStr :=
  (((((splitLines raw).filter (fun l => !l.isEmpty))).take 5).find? topicQual).getD
    (pstr "GERAL")

/-- Occurrence of a term in a text ignoring letter case: both sides
lowercased. -/
def occursIgnoringCase (termo text : PyStr) : Bool :=
  strContains (pyLower text) (pyLower termo)

/-- Text rendering of a dict value, as serialized into a CSV cell. -/
def pyValText : PyVal → PyStr
  | .str s => s
  | .int n => pstr (Nat.repr n)

/-- One semicolon-delimited CSV data row for a finding (`sep=';'`). -/
def csvLine (e : Entry) : PyStr := joinWith 59 (e.map (fun kv => pyValText kv.2))

/-- The semicolon-delimited CSV header row: the finding's column names. -/
def csvHeader (e : Entry) : PyStr := joinWith 59 (e.map (fun kv => pstr kv.1))

/-- The high-impact CSV step of `generate_reports` (src/bot.py lines
191-196): `if concursos:` build a DataFrame and `to_csv(..., sep=';')`,
else write nothing.  The produced file is modelled as its list of rows
(a header row plus one row per finding, in order); `none` models "no
file written", which the code reaches without raising. -/
def writeHighImpactCsv (concursos : List Entry) : Option (List PyStr) :=
  if concursos.isEmpty then none
  else some (csvHeader (concursos.headD []) :: concursos.map csvLine)

/-- Page text for the C4 counterexample: five empty lines precede the
upper-case heading. -/
def cex4Text : PyStr := pstr "\n\n\n\n\nTITULO GRANDE\nconcurso público"

/-- Page text for the C5 counterexample: the slice
`text_clean[idx-100 : idx+200]` around the match starts with a space,
which `strip()` removes. -/
def cex5Text : PyStr := pstr "a " ++ List.replicate 99 98 ++ pstr "concurso público"

/-- Page text for the C3 counterexample: contains `"seu nome"`, the
lower-case form of the catalog term `"SEU NOME"` of `src/bot1.py`. -/
def cex3Text : PyStr := pstr "Edital sobre seu nome publicado"

/-- The page text of the spec's worked example (section 8). -/
def c6Text : PyStr :=
  pstr "SECRETARIA DE SAÚDE\nAbertura de concurso público para vagas."

theorem pyStrip_length_le (s : PyStr) : (pyStrip s).length ≤ s.length := by
  unfold pyStrip
  rw [List.length_reverse]
  calc ((s.dropWhile pyIsSpace).reverse.dropWhile pyIsSpace).length
      ≤ (s.dropWhile pyIsSpace).reverse.length :=
        List.Sublist.length_le (List.dropWhile_sublist _)
    _ = (s.dropWhile pyIsSpace).length := List.length_reverse _
    _ ≤ s.length := List.Sublist.length_le (List.dropWhile_sublist _)

/-- The pre-suffix part of any snippet spans at most 300 characters. -/
theorem snippetOf_core_length (clean lower termo : PyStr) :
    ∃ core, snippetOf clean lower termo = core ++ pstr "..." ∧
      core.length ≤ 300 := by
  unfold snippetOf
  refine ⟨_, rfl, ?_⟩
  have h1 := pyStrip_length_le
    ((clean.drop ((firstIdx termo lower).getD 0 - 100)).take
      (min clean.length ((firstIdx termo lower).getD 0 + 200) -
        ((firstIdx termo lower).getD 0 - 100)))
  have h2 := List.length_take
    (min clean.length ((firstIdx termo lower).getD 0 + 200) -
      ((firstIdx termo lower).getD 0 - 100))
    (clean.drop ((firstIdx termo lower).getD 0 - 100))
  have h3 : min clean.length ((firstIdx termo lower).getD 0 + 200) ≤
      (firstIdx termo lower).getD 0 + 200 := Nat.min_le_right _ _
  omega

/-! ## The claims -/

/-- C1: for every document scan, the high-impact findings sequence
returned by `analyze_pdf` is exactly the subsequence of the all-findings
sequence whose impact equals HIGH (`"ALTO"`), in the same relative
order, each element the very same record (a filtered view). -/
theorem high_impact_filtered_view (arq : Option PyStr)
    (catalog : List Category) (pages : List PyStr) (dataProc : PyStr) :
    (analyzePdf arq catalog pages dataProc).2 =
      (analyzePdf arq catalog pages dataProc).1.filter isAltoB := by
  rw [analyzePdf_eq]

/-- C2: for every page text and every catalog (with distinct category
names, as a Python dict guarantees), the classification pass emits at
most one Finding per category on that page — the first term of the
category, in term order, that occurs as a substring wins, and the
category's earlier terms do not occur — so a page yields between 0 and
`len(catalog)` Findings. -/
theorem page_at_most_one_per_category (catalog : List Category)
    (hnd : (catalog.map Category.nome).Nodup) (arq : Option PyStr)
    (pagina : Nat) (text dataProc : PyStr) :
    (classifyPage arq catalog pagina text dataProc).length ≤ catalog.length ∧
    (∀ nome : PyStr,
      (classifyPage arq catalog pagina text dataProc).countP (catOfB nome) ≤ 1) ∧
    (∀ e ∈ classifyPage arq catalog pagina text dataProc,
      ∃ cat ∈ catalog, List.lookup "categoria" e = some (PyVal.str cat.nome) ∧
        ∃ termo pre post, cat.termos = pre ++ termo :: post ∧
          strContains (pyLower (cleanText text)) termo = true ∧
          (∀ t ∈ pre, strContains (pyLower (cleanText text)) t = false) ∧
          List.lookup "termo_encontrado" e = some (PyVal.str termo)) := by
  by_cases ht : text = []
  · simp [classifyPage, ht]
  · unfold classifyPage
    rw [if_neg ht]
    refine ⟨pageEntries_length_le _ _ _ _ _ _ _,
      fun nome => countP_pageEntries_le_one hnd nome, ?_⟩
    intro e he
    obtain ⟨cat, hcat, hce⟩ := mem_pageEntries.mp he
    obtain ⟨termo, hft, rfl⟩ := catEntry_shape hce
    obtain ⟨pre, post, hdec, hcon, hpre⟩ := find?_decomp hft
    exact ⟨cat, hcat,
      lookup_categoria_mkEntry arq pagina (topicLabel text) cat.nome termo
        cat.impacto (snippetOf (cleanText text) (pyLower (cleanText text)) termo)
        dataProc,
      termo, pre, post, hdec, hcon, hpre,
      lookup_termo_mkEntry arq pagina (topicLabel text) cat.nome termo
        cat.impacto (snippetOf (cleanText text) (pyLower (cleanText text)) termo)
        dataProc⟩

/-- Witness for C2: the bound is realised on the shipped catalog and the
spec's worked-example page. -/
theorem page_at_most_one_per_category_witness :
    (classifyPage none botKeywords 1 c6Text (pstr "2026-01-02")).length ≤
      botKeywords.length ∧
    (∀ nome : PyStr,
      (classifyPage none botKeywords 1 c6Text (pstr "2026-01-02")).countP
        (catOfB nome) ≤ 1) ∧
    (∀ e ∈ classifyPage none botKeywords 1 c6Text (pstr "2026-01-02"),
      ∃ cat ∈ botKeywords,
        List.lookup "categoria" e = some (PyVal.str cat.nome) ∧
        ∃ termo pre post, cat.termos = pre ++ termo :: post ∧
          strContains (pyLower (cleanText c6Text)) termo = true ∧
          (∀ t ∈ pre, strContains (pyLower (cleanText c6Text)) t = false) ∧
          List.lookup "termo_encontrado" e = some (PyVal.str termo)) :=
  page_at_most_one_per_category botKeywords (by decide) none 1 c6Text
    (pstr "2026-01-02")

/-- C8: the text normalizer is idempotent. -/
theorem normalize_idempotent (x : PyStr) :
    cleanText (cleanText x) = cleanText x := cleanText_idem_aux x

/-- C9: the high-impact CSV writer produces a file (modelled as its row
list: a header plus one semicolon-delimited row per Finding, in order)
exactly when the high-impact sequence is non-empty, and produces no
file for the empty sequence — a defined outcome of the total writer,
not an error. -/
theorem high_impact_csv_behavior (l : List Entry) :
    (writeHighImpactCsv l = none ↔ l = []) ∧
    (∀ rows, writeHighImpactCsv l = some rows →
      rows.length = l.length + 1 ∧ rows.tail = l.map csvLine) := by
  cases l with
  | nil =>
    refine ⟨by simp [writeHighImpactCsv], ?_⟩
    intro rows hr
    simp [writeHighImpactCsv] at hr
  | cons e es =>
    refine ⟨by simp [writeHighImpactCsv], ?_⟩
    intro rows hr
    simp only [writeHighImpactCsv, List.isEmpty_cons, Bool.false_eq_true,
      if_false] at hr
    cases hr.symm
    simp

/-- Witness for C9: the empty batch writes nothing; a one-finding batch
writes a header row plus one data row. -/
theorem high_impact_csv_behavior_witness :
    writeHighImpactCsv ([] : List Entry) = none ∧
    ∃ rows, writeHighImpactCsv [[("impacto", PyVal.str (pstr "ALTO"))]] = some rows ∧
      rows.length = 2 :=
  ⟨(high_impact_csv_behavior []).1.mpr rfl,
   ⟨[pstr "impacto", pstr "ALTO"], by decide,
    ((high_impact_csv_behavior [[("impacto", PyVal.str (pstr "ALTO"))]]).2
      [pstr "impacto", pstr "ALTO"] (by decide)).1⟩⟩

/-- C10: the classification pass is deterministic in its inputs and the
clock: two runs of `analyze_pdf` over equal page sequences with equal
catalogs and equal current dates produce identical result pairs (the
embedding is a pure function of exactly these inputs). -/
theorem analysis_deterministic (arq : Option PyStr)
    (catalogA catalogB : List Category) (pagesA pagesB : List PyStr)
    (dA dB : PyStr) (hc : catalogA = catalogB) (hp : pagesA = pagesB)
    (hd : dA = dB) :
    analyzePdf arq catalogA pagesA dA = analyzePdf arq catalogB pagesB dB := by
  rw [hc, hp, hd]

/-- Witness for C10: two concrete identical runs coincide. -/
theorem analysis_deterministic_witness :
    analyzePdf none botKeywords [c6Text] (pstr "2026-01-02") =
      analyzePdf none botKeywords [c6Text] (pstr "2026-01-02") :=
  analysis_deterministic none botKeywords botKeywords [c6Text] [c6Text]
    (pstr "2026-01-02") (pstr "2026-01-02") rfl rfl rfl

/-- C3 counterexample: the `src/bot1.py` catalog authors the term
`"SEU NOME"` in upper case; the term occurs in the page text ignoring
letter case, yet the run records no finding at all, because the term is
matched as authored against the lower-cased text. -/
theorem case_insensitive_matching_cex :
    (bot1Keywords.headD ⟨[], [], []⟩).termos = [pstr "SEU NOME"] ∧
    occursIgnoringCase (pstr "SEU NOME") (cleanText cex3Text) = true ∧
    (analyzePdf (some (pstr "doe.pdf")) bot1Keywords [cex3Text]
      (pstr "2026-01-02")).1 = [] := by decide

/-- C3 amended: matching is performed against the lower-cased normalized
text only — the term is used exactly as authored.  Hence a term authored
entirely in lower case matches iff it occurs in the text ignoring letter
case, while a term containing any code point not fixed by lowercasing
(e.g. an upper-case letter) never matches any page. -/
theorem matching_lowercased_text_only (text termo : PyStr) :
    (pyLower termo = termo →
      strContains (pyLower (cleanText text)) termo =
        occursIgnoringCase termo (cleanText text)) ∧
    (∀ c ∈ termo, pyLowerN c ≠ c →
      strContains (pyLower (cleanText text)) termo = false) := by
  constructor
  · intro h
    show strContains (pyLower (cleanText text)) termo =
      strContains (pyLower (cleanText text)) (pyLower termo)
    rw [h]
  · intro c hc hne
    exact contains_lower_fixed hc hne

/-- Witness for C3 (amended): a lower-case-authored term matches a page
whose text carries it in capitals; the upper-case-authored term never
matches. -/
theorem matching_lowercased_text_only_witness :
    (strContains
      (pyLower (cleanText (pstr "Abertura de CONCURSO PÚBLICO para vagas")))
      (pstr "concurso público") =
      occursIgnoringCase (pstr "concurso público")
        (cleanText (pstr "Abertura de CONCURSO PÚBLICO para vagas"))) ∧
    occursIgnoringCase (pstr "concurso público")
      (cleanText (pstr "Abertura de CONCURSO PÚBLICO para vagas")) = true ∧
    strContains (pyLower (cleanText cex3Text)) (pstr "SEU NOME") = false :=
  ⟨(matching_lowercased_text_only
      (pstr "Abertura de CONCURSO PÚBLICO para vagas")
      (pstr "concurso público")).1 (by decide),
   by decide,
   (matching_lowercased_text_only cex3Text (pstr "SEU NOME")).2 83
     (by decide) (by decide)⟩

/-- C4 counterexample: on a page whose first five raw lines are empty,
the code's label is the default `"GERAL"`, while the label computed by
the claim's rule (first 5 NON-EMPTY lines) is the heading. -/
theorem topic_label_nonempty_lines_cex :
    topicLabel cex4Text = pstr "GERAL" ∧
    specTopicLabel cex4Text = pstr "TITULO GRANDE" ∧
    topicLabel cex4Text ≠ specTopicLabel cex4Text := by decide

/-- C4 amended: the topic label scans at most the first 5 lines of the
raw page text split on newlines — empty lines included, each consuming
one of the 5 slots — in order; the first line entirely upper-case and
longer than 5 characters becomes the label, and otherwise the label is
the default `"GERAL"`. -/
theorem topic_label_first_five_lines (raw : PyStr) :
    (topicLabel raw = pstr "GERAL" ∧
      ∀ l ∈ (splitLines raw).take 5, topicQual l = false) ∨
    (∃ pre l post, (splitLines raw).take 5 = pre ++ l :: post ∧
      topicQual l = true ∧ (∀ l2 ∈ pre, topicQual l2 = false) ∧
      topicLabel raw = l) := by
  cases hf : ((splitLines raw).take 5).find? topicQual with
  | none =>
    left
    refine ⟨by unfold topicLabel; rw [hf]; rfl, ?_⟩
    intro l hl
    exact Bool.eq_false_iff.mpr (List.find?_eq_none.mp hf l hl)
  | some l =>
    right
    obtain ⟨pre, post, heq, hq, hpre⟩ := find?_decomp hf
    exact ⟨pre, l, post, heq, hq, hpre, by unfold topicLabel; rw [hf]; rfl⟩

/-- Witness for C4 (amended), at the counterexample page: all of its
first five raw lines fail the heading test, so the label is the
default. -/
theorem topic_label_first_five_lines_witness :
    (topicLabel cex4Text = pstr "GERAL" ∧
      ∀ l ∈ (splitLines cex4Text).take 5, topicQual l = false) ∨
    (∃ pre l post, (splitLines cex4Text).take 5 = pre ++ l :: post ∧
      topicQual l = true ∧ (∀ l2 ∈ pre, topicQual l2 = false) ∧
      topicLabel cex4Text = l) :=
  topic_label_first_five_lines cex4Text

/-- C6: on the spec's worked-example page with the shipped catalog of
`src/bot.py`, the topic label is `"SECRETARIA DE SAÚDE"` and exactly two
Findings are emitted: CONCURSOS_SELECOES via `"concurso público"` with
impact ALTO, then SAUDE_BIOTEC via `"secretaria de saúde"` with impact
MEDIO. -/
theorem worked_example_two_findings :
    topicLabel c6Text = pstr "SECRETARIA DE SAÚDE" ∧
    (analyzePdf none botKeywords [c6Text] (pstr "2026-01-02")).1.map
      (fun e => (List.lookup "categoria" e, List.lookup "termo_encontrado" e,
        List.lookup "impacto" e)) =
      [(some (PyVal.str (pstr "CONCURSOS_SELECOES")),
        some (PyVal.str (pstr "concurso público")),
        some (PyVal.str (pstr "ALTO"))),
       (some (PyVal.str (pstr "SAUDE_BIOTEC")),
        some (PyVal.str (pstr "secretaria de saúde")),
        some (PyVal.str (pstr "MEDIO")))] := by decide

set_option maxRecDepth 4000 in
/-- C5 counterexample: on `cex5Text` the match of `"concurso público"`
is at index 101, so the claim's snippet would be the raw slice
`text_clean[1:117]` plus `"..."` — but that slice starts with a space
which `strip()` removes, so the emitted snippet differs from the
claim's raw-slice prediction. -/
theorem snippet_raw_slice_cex :
    firstIdx (pstr "concurso público") (pyLower (cleanText cex5Text)) =
      some 101 ∧
    (cleanText cex5Text).length = 117 ∧
    ((classifyPage none botKeywords 1 cex5Text (pstr "2026-01-02")).map
      (List.lookup "categoria")) =
      [some (PyVal.str (pstr "CONCURSOS_SELECOES"))] ∧
    List.lookup "resumo_snippet"
      ((classifyPage none botKeywords 1 cex5Text (pstr "2026-01-02")).headD []) ≠
      some (PyVal.str (((cleanText cex5Text).drop 1).take 116 ++ pstr "...")) := by
  decide

/-- C5 amended: the emitted Finding's snippet is taken at the first
occurrence of the matched term in the lower-cased normalized text
(earlier offsets carry no occurrence), spans from 100 characters before
to 200 characters after the match start clamped to the text bounds, is
sliced from the normalized original-cased text, is stripped of leading
and trailing whitespace, and carries a `"..."` suffix; the page emits
no second Finding for that category. -/
theorem snippet_first_occurrence_stripped (catalog : List Category)
    (hnd : (catalog.map Category.nome).Nodup) (arq : Option PyStr)
    (pagina : Nat) (text dataProc : PyStr) (e : Entry)
    (he : e ∈ classifyPage arq catalog pagina text dataProc) :
    ∃ cat ∈ catalog, ∃ termo idx,
      cat.termos.find?
        (fun t => strContains (pyLower (cleanText text)) t) = some termo ∧
      firstIdx termo (pyLower (cleanText text)) = some idx ∧
      leadsWith termo ((pyLower (cleanText text)).drop idx) = true ∧
      (∀ j < idx, leadsWith termo ((pyLower (cleanText text)).drop j) = false) ∧
      List.lookup "resumo_snippet" e =
        some (PyVal.str (pyStrip (((cleanText text).drop (idx - 100)).take
          (min (cleanText text).length (idx + 200) - (idx - 100))) ++
          pstr "...")) ∧
      (classifyPage arq catalog pagina text dataProc).countP
        (catOfB cat.nome) ≤ 1 := by
  by_cases ht : text = []
  · simp [classifyPage, ht] at he
  · rw [classifyPage, if_neg ht] at he
    obtain ⟨cat, hcat, hce⟩ := mem_pageEntries.mp he
    obtain ⟨termo, hft, rfl⟩ := catEntry_shape hce
    have hcon : strContains (pyLower (cleanText text)) termo = true := by
      have := List.find?_some hft
      simpa using this
    obtain ⟨idx, hidx⟩ := Option.isSome_iff_exists.mp hcon
    obtain ⟨hocc, hfirst⟩ := firstIdx_some hidx
    refine ⟨cat, hcat, termo, idx, hft, hidx, hocc, hfirst, ?_, ?_⟩
    · rw [lookup_snippet_mkEntry]
      unfold snippetOf
      rw [hidx]
      rfl
    · rw [classifyPage, if_neg ht]
      exact countP_pageEntries_le_one hnd cat.nome

/-- The first finding of the worked-example page, used to instantiate
the C5 and C7 theorems at a concrete input. -/
def w5e : Entry :=
  (classifyPage none botKeywords 1 c6Text (pstr "2026-01-02")).headD []

/-- Witness for C5 (amended), at the worked-example page. -/
theorem snippet_first_occurrence_stripped_witness :
    ∃ cat ∈ botKeywords, ∃ termo idx,
      cat.termos.find?
        (fun t => strContains (pyLower (cleanText c6Text)) t) = some termo ∧
      firstIdx termo (pyLower (cleanText c6Text)) = some idx ∧
      leadsWith termo ((pyLower (cleanText c6Text)).drop idx) = true ∧
      (∀ j < idx, leadsWith termo ((pyLower (cleanText c6Text)).drop j) = false) ∧
      List.lookup "resumo_snippet" w5e =
        some (PyVal.str (pyStrip (((cleanText c6Text).drop (idx - 100)).take
          (min (cleanText c6Text).length (idx + 200) - (idx - 100))) ++
          pstr "...")) ∧
      (classifyPage none botKeywords 1 c6Text (pstr "2026-01-02")).countP
        (catOfB cat.nome) ≤ 1 :=
  snippet_first_occurrence_stripped botKeywords (by decide) none 1 c6Text
    (pstr "2026-01-02") w5e (by decide)

/-- C7 counterexample: a Finding created by `src/bot.py`'s
classification pass has no `"arquivo"` (source_file) key at all. -/
theorem finding_no_source_file_cex :
    (analyzePdf none botKeywords [pstr "Homologação do resultado final"]
      (pstr "2026-01-02")).1.map (List.lookup "arquivo") = [none] := by decide

/-- C7 amended: every Finding carries page number (1-based, positive),
detected topic, category, matched term, the category's impact, a context
snippet of at most 300 characters before its `"..."` suffix, and the
processed date; the source-file (`arquivo`) field is present exactly in
`src/bot1.py`'s records (`arq = some name`) and absent from
`src/bot.py`'s (`arq = none`). -/
theorem finding_record_fields (arq : Option PyStr) (catalog : List Category)
    (pages : List PyStr) (dataProc : PyStr) (e : Entry)
    (he : e ∈ (analyzePdf arq catalog pages dataProc).1) :
    List.lookup "arquivo" e = arq.map PyVal.str ∧
    (∃ n : Nat, List.lookup "pagina" e = some (PyVal.int n) ∧ 1 ≤ n) ∧
    (∃ t, List.lookup "topico_detectado" e = some (PyVal.str t)) ∧
    (∃ cat ∈ catalog, List.lookup "categoria" e = some (PyVal.str cat.nome) ∧
      List.lookup "impacto" e = some (PyVal.str cat.impacto) ∧
      ∃ termo ∈ cat.termos,
        List.lookup "termo_encontrado" e = some (PyVal.str termo)) ∧
    (∃ core, List.lookup "resumo_snippet" e =
      some (PyVal.str (core ++ pstr "...")) ∧ core.length ≤ 300) ∧
    List.lookup "data_processamento" e = some (PyVal.str dataProc) := by
  rw [analyzePdf_eq] at he
  obtain ⟨ip, _, hcp⟩ := mem_allPages.mp he
  by_cases ht : ip.2 = []
  · simp [classifyPage, ht] at hcp
  · rw [classifyPage, if_neg ht] at hcp
    obtain ⟨cat, hcat, hce⟩ := mem_pageEntries.mp hcp
    obtain ⟨termo, hft, rfl⟩ := catEntry_shape hce
    have htm : termo ∈ cat.termos := List.mem_of_find?_eq_some hft
    obtain ⟨core, hcore, hlen⟩ :=
      snippetOf_core_length (cleanText ip.2) (pyLower (cleanText ip.2)) termo
    refine ⟨?_,
      ⟨ip.1 + 1, lookup_pagina_mkEntry _ _ _ _ _ _ _ _, by omega⟩,
      ⟨_, lookup_topico_mkEntry _ _ _ _ _ _ _ _⟩,
      ⟨cat, hcat, lookup_categoria_mkEntry _ _ _ _ _ _ _ _,
        lookup_impacto_mkEntry _ _ _ _ _ _ _ _,
        termo, htm, lookup_termo_mkEntry _ _ _ _ _ _ _ _⟩,
      ⟨core, by rw [lookup_snippet_mkEntry, hcore], hlen⟩,
      lookup_data_mkEntry _ _ _ _ _ _ _ _⟩
    cases arq with
    | none => exact lookup_arquivo_mkEntry_none _ _ _ _ _ _ _
    | some a => exact lookup_arquivo_mkEntry _ _ _ _ _ _ _ _

/-- A one-page run of the `src/bot1.py` analyzer, used to instantiate
the C7 theorem at a concrete input. -/
def w7e : Entry :=
  ((analyzePdf (some (pstr "DOE_02-01-2025.pdf")) bot1Keywords
    [pstr "Resultado do processo seletivo"] (pstr "2026-01-02")).1).headD []

/-- Witness for C7 (amended), on a concrete `src/bot1.py` run: the
record carries the source-file name and all the other fields. -/
theorem finding_record_fields_witness :
    List.lookup "arquivo" w7e =
      (some (pstr "DOE_02-01-2025.pdf")).map PyVal.str ∧
    (∃ n : Nat, List.lookup "pagina" w7e = some (PyVal.int n) ∧ 1 ≤ n) ∧
    (∃ t, List.lookup "topico_detectado" w7e = some (PyVal.str t)) ∧
    (∃ cat ∈ bot1Keywords,
      List.lookup "categoria" w7e = some (PyVal.str cat.nome) ∧
      List.lookup "impacto" w7e = some (PyVal.str cat.impacto) ∧
      ∃ termo ∈ cat.termos,
        List.lookup "termo_encontrado" w7e = some (PyVal.str termo)) ∧
    (∃ core, List.lookup "resumo_snippet" w7e =
      some (PyVal.str (core ++ pstr "...")) ∧ core.length ≤ 300) ∧
    List.lookup "data_processamento" w7e =
      some (PyVal.str (pstr "2026-01-02")) :=
  finding_record_fields (some (pstr "DOE_02-01-2025.pdf")) bot1Keywords
    [pstr "Resultado do processo seletivo"] (pstr "2026-01-02") w7e (by decide)

end DOE
